/-
Verification of the qbak backup tool's core algorithms against its
natural-language specification.

The Rust sources are shallowly embedded: pure functions become Lean
functions over `String`/`List Char`; filesystem-dependent functions take
the relevant filesystem observations as explicit arguments (an existence
predicate, file contents, a resolved directory tree); the process-wide
interrupt flag becomes a `Nat → Bool` schedule sampled at the cooperative
polling points; the operation registry becomes explicit state passing on a
`World` record.  Rust `Result<T, QbakError>` becomes `Except QbakError T`.
-/
import Mathlib

namespace Qbak

/-! ## Paths

Rust `std::path::Path` is modelled as a list of path segments.  For the
paths the claims are about (paths whose final segment is a normal
component), this matches Rust semantics: `file_name` is the last segment,
`parent` drops it (yielding the empty path for a bare filename, as Rust
does), and `join` appends a segment. -/

structure RPath where
  segments : List String
deriving DecidableEq, Repr

namespace RPath

/-- Rust `Path::file_name().and_then(|n| n.to_str())` for paths whose final
segment is a normal component. -/
def fileName (p : RPath) : Option String := p.segments.getLast?

/-- Rust `Path::parent()`: `none` for the empty path, otherwise the path with
the final segment dropped (Rust returns `Some("")` for a bare filename,
which is the empty segment list here). -/
def parent (p : RPath) : Option RPath :=
  match p.segments with
  | [] => none
  | _ :: _ => some ⟨p.segments.dropLast⟩

/-- Rust `Path::join` with a single normal component. -/
def join (p : RPath) (name : String) : RPath := ⟨p.segments ++ [name]⟩

/-- Rust `Path::new(".")`, the current directory. -/
def curDir : RPath := ⟨["."]⟩

end RPath

/-! ## Errors (src/error.rs) -/

/-- The `QbakError` enum from src/error.rs.  The `Io` variant's payload (an
`std::io::Error`) is abstracted to its message. -/
inductive QbakError where
  | SourceNotFound (path : RPath)
  | FilenameTooLong (length max : Nat)
  | InsufficientSpace (needed available : Nat)
  | PermissionDenied (path : RPath)
  | InvalidFilesystemChars (chars : String)
  | SymlinkLoop (path : RPath)
  | BackupExists (path : RPath)
  | PathTraversal (path : RPath)
  | ioError (message : String)
  | Config (message : String)
  | Interrupted
  | Validation (message : String)
deriving DecidableEq, Repr

namespace QbakError

/-- The `QbakError::validation` constructor helper. -/
def validation (message : String) : QbakError := .Validation message

/-- Embeds `QbakError::is_recoverable` (src/error.rs lines 58-66). -/
def is_recoverable : QbakError → Bool
  | .SourceNotFound _ => true
  | .PermissionDenied _ => true
  | .Validation _ => true
  | _ => false

/-- Embeds `QbakError::exit_code` (src/error.rs lines 69-76). -/
def exit_code : QbakError → Int
  | .Interrupted => 130
  | .Validation _ => 2
  | .Config _ => 2
  | _ => 1

end QbakError

/-! ## Configuration (src/config.rs) -/

/-- The `Config` struct from src/config.rs (the fields the core
algorithms read). -/
structure Config where
  timestamp_format : String
  backup_suffix : String
  preserve_permissions : Bool
  follow_symlinks : Bool
  include_hidden : Bool
  max_filename_length : Nat
deriving DecidableEq, Repr

/-- Embeds `Config::default()` / `default_config()` from src/config.rs. -/
def default_config : Config :=
  { timestamp_format := "YYYYMMDDTHHMMSS"
    backup_suffix := "qbak"
    preserve_permissions := true
    follow_symlinks := true
    include_hidden := true
    max_filename_length := 255 }

/-! ## Filename splitting (src/naming.rs `split_filename`) -/

/-- Index of the last occurrence of `c` in the list, mirroring Rust
`str::rfind` on a string of one-byte characters (Rust returns a byte
index; for the claims the index is only used at character granularity,
and `rfind('.')` always returns a character boundary). -/
def rfindIdx (c : Char) (s : List Char) : Option Nat :=
  match s with
  | [] => none
  | a :: rest =>
    match rfindIdx c rest with
    | some i => some (i + 1)
    | none => if a = c then some 0 else none

/-- Embeds `split_filename` (src/naming.rs lines 87-98): split a filename into
stem and extension at the last interior dot; a dot at position 0 is kept
in the stem (no extension), a trailing dot is dropped (no extension). -/
def split_filename (filename : String) : String × String :=
  match rfindIdx '.' filename.data with
  | some dot_pos =>
    if 0 < dot_pos ∧ dot_pos < filename.data.length - 1 then
      (⟨filename.data.take dot_pos⟩, ⟨filename.data.drop (dot_pos + 1)⟩)
    else if dot_pos = filename.data.length - 1 then
      (⟨filename.data.take dot_pos⟩, "")
    else
      (filename, "")
  | none => (filename, "")

example : split_filename "file.txt" = ("file", "txt") := by decide
example : split_filename "file.tar.gz" = ("file.tar", "gz") := by decide
example : split_filename "file" = ("file", "") := by decide
example : split_filename ".hidden" = (".hidden", "") := by decide
example : split_filename "file." = ("file", "") := by decide

instance {ε α : Type _} [DecidableEq ε] [DecidableEq α] :
    DecidableEq (Except ε α)
  | .error a, .error b =>
    if h : a = b then .isTrue (by rw [h])
    else .isFalse (by intro hc; cases hc; exact h rfl)
  | .error _, .ok _ => .isFalse (by intro hc; cases hc)
  | .ok _, .error _ => .isFalse (by intro hc; cases hc)
  | .ok a, .ok b =>
    if h : a = b then .isTrue (by rw [h])
    else .isFalse (by intro hc; cases hc; exact h rfl)

/-! ## Filename validation (src/naming.rs lines 100-148) -/

/-- Rust `str::len()`: the UTF-8 byte length of a string. -/
def utf8Len (s : String) : Nat := (s.data.map Char.utf8Size).sum

/-- Embeds `validate_filename_length` (src/naming.rs lines 101-109). -/
def validate_filename_length (filename : String) (max_length : Nat) :
    Except QbakError Unit :=
  if utf8Len filename > max_length then
    .error (.FilenameTooLong (utf8Len filename) max_length)
  else
    .ok ()

/-- The `INVALID_CHARS` constant from `validate_filesystem_chars`. -/
def INVALID_CHARS : List Char := ['<', '>', ':', '"', '|', '?', '*']

/-- The `RESERVED_NAMES` constant from `validate_filesystem_chars`. -/
def RESERVED_NAMES : List String :=
  ["CON", "PRN", "AUX", "NUL", "COM1", "COM2", "COM3", "COM4", "COM5",
   "COM6", "COM7", "COM8", "COM9", "LPT1", "LPT2", "LPT3", "LPT4", "LPT5",
   "LPT6", "LPT7", "LPT8", "LPT9"]

/-- Rust `char::is_control()`: Unicode general category Cc, i.e. U+0000
to U+001F and U+007F to U+009F. -/
def isControlChar (c : Char) : Bool :=
  c.toNat < 0x20 || (0x7F ≤ c.toNat && c.toNat ≤ 0x9F)

/-- Rust `str::to_uppercase()` restricted to ASCII (the reserved-name
comparison only involves ASCII names). -/
def asciiUpper (s : String) : String := ⟨s.data.map Char.toUpper⟩

/-- Embeds `validate_filesystem_chars` (src/naming.rs lines 112-148). -/
def validate_filesystem_chars (filename : String) : Except QbakError Unit :=
  let invalid_chars := filename.data.filter (fun c => INVALID_CHARS.contains c)
  if invalid_chars.isEmpty = false then
    .error (.InvalidFilesystemChars ⟨invalid_chars⟩)
  else
    let stem := asciiUpper (split_filename filename).1
    if RESERVED_NAMES.contains stem then
      .error (.InvalidFilesystemChars ("Reserved name: " ++ stem))
    else if filename.data.any isControlChar then
      .error (.InvalidFilesystemChars "Control characters")
    else
      .ok ()

example : validate_filesystem_chars "normal-file.txt" = .ok () := by decide
example : (validate_filesystem_chars "file<test>.txt").isOk = false := by decide
example : (validate_filesystem_chars "con.txt").isOk = false := by decide

/-! ## Timestamps (src/naming.rs `format_timestamp`)

`Utc::now()` is impure; the current time is passed to the embedded
functions as an explicit `DateTimeUtc` value. -/

/-- A UTC wall-clock time, as rendered by chrono's formatter. -/
structure DateTimeUtc where
  year : Nat
  month : Nat
  day : Nat
  hour : Nat
  minute : Nat
  second : Nat
deriving DecidableEq, Repr

/-- chrono zero-padding to width 2 (`%m`, `%d`, `%H`, `%M`, `%S`). -/
def pad2 (n : Nat) : String := if n < 10 then "0" ++ toString n else toString n

/-- chrono zero-padding to width 4 (`%Y`, for years 0-9999). -/
def pad4 (n : Nat) : String :=
  if n < 10 then "000" ++ toString n
  else if n < 100 then "00" ++ toString n
  else if n < 1000 then "0" ++ toString n
  else toString n

/-- chrono's `format("%Y%m%dT%H%M%S")`: compact ISO-8601 basic. -/
def renderCompact (t : DateTimeUtc) : String :=
  pad4 t.year ++ pad2 t.month ++ pad2 t.day ++ "T" ++
    pad2 t.hour ++ pad2 t.minute ++ pad2 t.second

/-- Embeds `format_timestamp` (src/naming.rs lines 75-84): the match arm for
`"YYYYMMDDTHHMMSS"` and the catch-all arm both render the compact
ISO-8601-basic format. -/
def format_timestamp (timestamp : DateTimeUtc) (format : String) : String :=
  match format with
  | "YYYYMMDDTHHMMSS" => renderCompact timestamp
  | _ => renderCompact timestamp

/-! ## Backup-name generation (src/naming.rs `generate_backup_name`) -/

/-- Embeds `generate_backup_name` (src/naming.rs lines 8-40), with the impure
`Utc::now()` passed in as `now`. -/
def generate_backup_name (source : RPath) (config : Config)
    (now : DateTimeUtc) : Except QbakError RPath := do
  let timestamp_str := format_timestamp now config.timestamp_format
  match source.fileName with
  | none => throw (QbakError.validation "Invalid source filename")
  | some source_name =>
    let stem := (split_filename source_name).1
    let extension := (split_filename source_name).2
    let backup_name :=
      if extension = "" then
        stem ++ "-" ++ timestamp_str ++ "-" ++ config.backup_suffix
      else
        stem ++ "-" ++ timestamp_str ++ "-" ++ config.backup_suffix ++
          "." ++ extension
    let _ ← validate_filename_length backup_name config.max_filename_length
    let _ ← validate_filesystem_chars backup_name
    let parent := source.parent.getD RPath.curDir
    return parent.join backup_name

/-! ## Collision resolution (src/naming.rs `resolve_collision`)

The filesystem enters only through point-in-time existence probes,
modelled as an explicit predicate `fsExists : RPath → Bool`. -/

/-- The candidate name `"<stem>-<counter>[.<extension>]"` probed by
`resolve_collision` for a given counter. -/
def collisionName (stem extension : String) (counter : Nat) : String :=
  if extension = "" then
    stem ++ "-" ++ toString counter
  else
    stem ++ "-" ++ toString counter ++ "." ++ extension

/-- The `for counter in 1..=9999` loop of `resolve_collision`: probe
successive counters while `fuel` attempts remain. -/
def probeLoop (fsExists : RPath → Bool) (parent : RPath)
    (stem extension : String) (counter fuel : Nat) : Except QbakError RPath :=
  match fuel with
  | 0 => .error (QbakError.validation "Too many backup collisions (>9999)")
  | fuel' + 1 =>
    let new_path := parent.join (collisionName stem extension counter)
    if fsExists new_path = false then
      .ok new_path
    else
      probeLoop fsExists parent stem extension (counter + 1) fuel'

/-- Embeds `resolve_collision` (src/naming.rs lines 43-72). -/
def resolve_collision (fsExists : RPath → Bool) (base_path : RPath) :
    Except QbakError RPath :=
  if fsExists base_path = false then
    .ok base_path
  else
    match base_path.fileName with
    | none => .error (QbakError.validation "Invalid backup filename")
    | some filename =>
      let parent := base_path.parent.getD RPath.curDir
      let stem := (split_filename filename).1
      let extension := (split_filename filename).2
      probeLoop fsExists parent stem extension 1 9999

/-! ## Temp path derivation (src/backup.rs `create_temp_backup_path`) -/

/-- Embeds `create_temp_backup_path` (src/backup.rs lines 329-339), with the
impure `std::process::id()` passed in as `process_id`. -/
def create_temp_backup_path (process_id : Nat) (backup_path : RPath) :
    Except QbakError RPath :=
  match backup_path.fileName with
  | none => .error (QbakError.validation "Invalid backup filename")
  | some filename =>
    let parent := backup_path.parent.getD RPath.curDir
    let temp_name := ".qbak_temp_" ++ toString process_id ++ "_" ++ filename
    .ok (parent.join temp_name)

/-! ## Chunked, cancellable file copy (src/backup.rs lines 246-272)

`copy_file_with_interrupt_check` reads 64 KiB chunks in a loop, polling
the interrupt flag before each read.  The flag is modelled as a schedule
`interrupted : Nat → Bool` giving the value observed at the n-th poll
(polls are numbered from 0).  The function returns the Rust result
together with the final state of the destination file: `none` means no
file exists at the destination path, `some bytes` means a file with those
bytes exists (`File::create` truncates/creates, `remove_file` deletes). -/

/-- The 64 KiB copy buffer size. -/
def CHUNK_SIZE : Nat := 64 * 1024

/-- The copy loop of `copy_file_with_interrupt_check`: before each chunk
read, poll the interrupt flag; on interrupt, remove the partially written
destination file and fail with `Interrupted`; on EOF (empty read), flush
and succeed. -/
def copyLoop (interrupted : Nat → Bool) (poll : Nat)
    (remaining written : List UInt8) :
    Except QbakError Unit × Option (List UInt8) :=
  if interrupted poll then
    (.error .Interrupted, none)
  else if h : remaining = [] then
    (.ok (), some written)
  else
    copyLoop interrupted (poll + 1) (remaining.drop CHUNK_SIZE)
      (written ++ remaining.take CHUNK_SIZE)
termination_by remaining.length
decreasing_by
  simp only [List.length_drop]
  have hlen : remaining.length ≠ 0 := by simpa using h
  have : 0 < CHUNK_SIZE := by decide
  omega

/-- Embeds `copy_file_with_interrupt_check` (src/backup.rs lines 246-272):
`File::create` first creates/truncates the destination (state
`some []`), then the chunk loop runs with poll counter 0. -/
def copy_file_with_interrupt_check (interrupted : Nat → Bool)
    (source : List UInt8) : Except QbakError Unit × Option (List UInt8) :=
  copyLoop interrupted 0 source []

/-- Number of the last poll performed on an uninterrupted run over
`len` source bytes: polls `0, 1, ..., chunkPolls len` occur, the final
one guarding the empty EOF read. -/
def chunkPolls (len : Nat) : Nat := (len + CHUNK_SIZE - 1) / CHUNK_SIZE

/-- The state of the two filesystem locations a single-file backup
touches: the temp path and the final destination path.  `none` means no
file exists there. -/
structure TwoSlotFs where
  temp : Option (List UInt8)
  final : Option (List UInt8)
deriving DecidableEq, Repr

/-- A regular-file source as observed by `backup_file`: `stat_len` is the
length reported by the fresh `calculate_size`/`fs::metadata` call, and
`content` the bytes subsequently streamed by the copy loop (the two are
separate filesystem observations, so a source mutated in between may make
them disagree). -/
structure FileSrc where
  stat_len : Nat
  content : List UInt8
deriving DecidableEq, Repr

/-- The statistics fields of `BackupResult` (src/backup.rs lines 14-21)
that the claims are about. -/
structure BackupResultData where
  files_processed : Nat
  total_size : Nat
deriving DecidableEq, Repr

/-- The copy phase of `backup_file` (src/backup.rs lines 53-98) on a
validated, collision-resolved destination: read the source's stat size
(`calculate_size`), copy the content to the temp path with interrupt
checking, then atomically rename the temp path onto the final
destination.  Errors propagate with the temp-path state left as the copy
routine left it and the final destination untouched. -/
def backup_file (interrupted : Nat → Bool) (src : FileSrc)
    (fs : TwoSlotFs) : Except QbakError BackupResultData × TwoSlotFs :=
  let file_size := src.stat_len
  let copied := copy_file_with_interrupt_check interrupted src.content
  match copied.1 with
  | .error e => (.error e, { temp := copied.2, final := fs.final })
  | .ok _ =>
    (.ok { files_processed := 1, total_size := file_size },
     { temp := none, final := copied.2 })

/-! ## Operation registry and guard (src/signal.rs)

`BackupContext` holds an interrupt flag and a lock-protected set of
active backup destination paths; `BackupOperationGuard` is the RAII
guard.  The mutable state is passed explicitly as a `World`; the on-disk
existence of paths is a predicate `disk`. -/

/-- The mutable state of a backup session: the interrupt flag, the set of
registered in-flight destination paths, and which paths exist on disk. -/
structure World where
  interrupted : Bool
  active : Finset RPath
  disk : RPath → Bool

/-- The `BackupOperationGuard` struct (src/signal.rs lines 144-149). -/
structure BackupOperationGuard where
  backup_path : RPath
  registered : Bool
  completed : Bool
deriving DecidableEq, Repr

/-- Embeds `BackupContext::register_operation` (src/signal.rs lines 38-43):
insert the path into the active set and hand out a guard. -/
def register_operation (p : RPath) (w : World) : BackupOperationGuard × World :=
  (⟨p, true, false⟩, { w with active := insert p w.active })

/-- Embeds `BackupContext::remove_operation` (src/signal.rs lines 91-95). -/
def remove_operation (p : RPath) (w : World) : World :=
  { w with active := w.active.erase p }

/-- Embeds `BackupOperationGuard::complete` (src/signal.rs lines 163-167):
remove the path from tracking and disarm the guard. -/
def guardComplete (g : BackupOperationGuard) (w : World) :
    BackupOperationGuard × World :=
  ({ g with registered := false, completed := true },
   remove_operation g.backup_path w)

/-- Embeds `impl Drop for BackupOperationGuard` (src/signal.rs lines 170-181):
on implicit release, remove the path from tracking only when the
interrupt flag is not set; when interrupted, deliberately leave it for
the cleanup pass. -/
def guardDrop (g : BackupOperationGuard) (w : World) : World :=
  if g.registered && !g.completed then
    if !w.interrupted then remove_operation g.backup_path w else w
  else
    w

/-- Embeds `BackupContext::set_interrupted` (src/signal.rs lines 33-35). -/
def set_interrupted (b : Bool) (w : World) : World := { w with interrupted := b }

/-- Embeds `BackupContext::get_active_operations` (src/signal.rs lines 46-51). -/
def get_active_operations (w : World) : Finset RPath := w.active

/-- Embeds `BackupContext::cleanup_active_operations_with_mode`
(src/signal.rs lines 59-88): delete every tracked path that still exists
on disk (recursively for directories, as a single file otherwise), then
clear the tracking set unconditionally.  The `silent` flag only controls
logging and has no effect on state. -/
def cleanup_active_operations_with_mode (_silent : Bool) (w : World) : World :=
  { w with
    active := ∅
    disk := fun q => if q ∈ w.active then false else w.disk q }

/-! ## Directory traversal (src/backup.rs lines 495-591)

A source directory is modelled as the list of its entries as
`fs::read_dir` yields them.  A symlink entry carries its resolution
outcome (the code resolves `read_link` against the link's parent and
calls `fs::metadata`, which follows links): it resolves to a regular
file of some size, to a directory, or to nothing. -/

/-- One filesystem entry of a directory listing.  `file` carries the
`fs::metadata().len()` size; symlink constructors carry the resolved
target. -/
inductive FsEntry where
  | file (name : String) (size : Nat)
  | directory (name : String) (entries : List FsEntry)
  | symlinkFile (name : String) (size : Nat)
  | symlinkDir (name : String) (entries : List FsEntry)
  | symlinkNone (name : String)

/-- The final path segment of an entry. -/
def FsEntry.name : FsEntry → String
  | .file n _ => n
  | .directory n _ => n
  | .symlinkFile n _ => n
  | .symlinkDir n _ => n
  | .symlinkNone n => n

/-- Embeds `is_hidden` (src/utils.rs lines 287-292): the final path segment
starts with `.`. -/
def is_hidden (name : String) : Bool := name.startsWith "."

/-- Embeds `count_files_and_size_recursive` (src/backup.rs lines 495-538) on an
uninterrupted run: per entry, skip if hidden and `include_hidden` is
false; a regular file counts once with its size; a directory recurses;
symlinks are skipped for the size calculation.  Returns
`(total_files, total_size)`. -/
def count_files_and_size_recursive (config : Config) :
    List FsEntry → Nat × Nat
  | [] => (0, 0)
  | e :: rest =>
    let tail := count_files_and_size_recursive config rest
    if !config.include_hidden && is_hidden e.name then
      tail
    else
      match e with
      | .file _ size => (1 + tail.1, size + tail.2)
      | .directory _ entries =>
        let sub := count_files_and_size_recursive config entries
        (sub.1 + tail.1, sub.2 + tail.2)
      | .symlinkFile _ _ => tail
      | .symlinkDir _ _ => tail
      | .symlinkNone _ => tail

/-- The statistics effect of `copy_directory_contents_with_progress`
(src/backup.rs lines 541-591) with `handle_symlink_with_progress`
(lines 594-661, Unix branch) on an uninterrupted, error-free run: per
entry, skip if hidden and `include_hidden` is false; a regular file is
copied (one file, its stat size); a directory recurses; a symlink is
resolved and its target copied when `follow_symlinks` is true, and
recreated as a symlink (no accumulator change) otherwise. -/
def copy_directory_contents_with_progress (config : Config) :
    List FsEntry → Nat × Nat
  | [] => (0, 0)
  | e :: rest =>
    let tail := copy_directory_contents_with_progress config rest
    if !config.include_hidden && is_hidden e.name then
      tail
    else
      match e with
      | .file _ size => (1 + tail.1, size + tail.2)
      | .directory _ entries =>
        let sub := copy_directory_contents_with_progress config entries
        (sub.1 + tail.1, sub.2 + tail.2)
      | .symlinkFile _ size =>
        if config.follow_symlinks then (1 + tail.1, size + tail.2) else tail
      | .symlinkDir _ entries =>
        if config.follow_symlinks then
          let sub := copy_directory_contents_with_progress config entries
          (sub.1 + tail.1, sub.2 + tail.2)
        else tail
      | .symlinkNone _ => tail

/-- Returns `true` when no entry of the tree (at any depth, behind no
symlink) is a symlink. -/
def noSymlinks : List FsEntry → Bool
  | [] => true
  | .file _ _ :: rest => noSymlinks rest
  | .directory _ entries :: rest => noSymlinks entries && noSymlinks rest
  | .symlinkFile _ _ :: _ => false
  | .symlinkDir _ _ :: _ => false
  | .symlinkNone _ :: _ => false

/-! ## Per-target loop (src/main.rs lines 134-168)

The outcome of processing each CLI target is given as a list; the loop
counts successes, continues past recoverable errors counting them, and
aborts the whole run on the first non-recoverable error. -/

/-- The per-target loop of `run` (src/main.rs lines 134-168), with each
target's outcome supplied in order.  Returns the final
`(success_count, error_count)`, or the first fatal error. -/
def process_targets (success_count error_count : Nat) :
    List (Except QbakError Unit) → Except QbakError (Nat × Nat)
  | [] => .ok (success_count, error_count)
  | r :: rest =>
    match r with
    | .ok _ => process_targets (success_count + 1) error_count rest
    | .error e =>
      if e.is_recoverable then
        process_targets success_count (error_count + 1) rest
      else
        .error e

/-- The backup filename `"<stem>-<timestamp>-<suffix>[.<extension>]"`
that section 4.1 of the spec prescribes for a given source filename,
timestamp and configuration (used to state the naming claims). -/
def spec_backup_name (name : String) (config : Config) (now : DateTimeUtc) :
    String :=
  (split_filename name).1 ++ "-" ++ renderCompact now ++ "-" ++
    config.backup_suffix ++
    (if (split_filename name).2 = "" then ""
     else "." ++ (split_filename name).2)

/-- The n-th collision-probe path derived from a base path with the
given filename: `"<stem>-<n>[.<extension>]"` joined to the base path's
directory. -/
def collisionVariant (base_path : RPath) (filename : String) (n : Nat) :
    RPath :=
  (base_path.parent.getD RPath.curDir).join
    (collisionName (split_filename filename).1 (split_filename filename).2 n)

/-! ## Properties of `rfindIdx` -/

theorem string_append_empty (s : String) : s ++ "" = s := by
  apply String.ext
  rw [String.data_append]
  simp [show ("" : String).data = [] from rfl]

theorem string_append_assoc (s t u : String) :
    s ++ t ++ u = s ++ (t ++ u) := by
  apply String.ext
  rw [String.data_append, String.data_append, String.data_append,
    String.data_append, List.append_assoc]

theorem rfindIdx_none {c : Char} : ∀ {s : List Char},
    rfindIdx c s = none → c ∉ s := by
  intro s
  induction s with
  | nil => simp
  | cons a rest ih =>
    intro h
    simp only [rfindIdx] at h
    cases hr : rfindIdx c rest with
    | some i => rw [hr] at h; exact absurd h (by simp)
    | none =>
      rw [hr] at h
      by_cases hac : a = c
      · simp [hac] at h
      · simp only [List.mem_cons, not_or]
        exact ⟨fun he => hac he.symm, ih hr⟩

theorem rfindIdx_lt_length {c : Char} : ∀ {s : List Char} {p : Nat},
    rfindIdx c s = some p → p < s.length := by
  intro s
  induction s with
  | nil => intro p h; simp [rfindIdx] at h
  | cons a rest ih =>
    intro p h
    simp only [rfindIdx] at h
    cases hr : rfindIdx c rest with
    | some i =>
      rw [hr] at h
      cases h
      simpa using Nat.succ_lt_succ (ih hr)
    | none =>
      rw [hr] at h
      by_cases hac : a = c
      · simp [hac] at h
        cases h
        simp
      · simp [hac] at h

theorem rfindIdx_getElem {c : Char} : ∀ {s : List Char} {p : Nat},
    rfindIdx c s = some p → s[p]? = some c := by
  intro s
  induction s with
  | nil => intro p h; simp [rfindIdx] at h
  | cons a rest ih =>
    intro p h
    simp only [rfindIdx] at h
    cases hr : rfindIdx c rest with
    | some i =>
      rw [hr] at h
      cases h
      simpa using ih hr
    | none =>
      rw [hr] at h
      by_cases hac : a = c
      · simp [hac] at h
        cases h
        simp [hac]
      · simp [hac] at h

theorem rfindIdx_not_mem_drop {c : Char} : ∀ {s : List Char} {p : Nat},
    rfindIdx c s = some p → c ∉ s.drop (p + 1) := by
  intro s
  induction s with
  | nil => intro p h; simp [rfindIdx] at h
  | cons a rest ih =>
    intro p h
    simp only [rfindIdx] at h
    cases hr : rfindIdx c rest with
    | some i =>
      rw [hr] at h
      cases h
      simpa using ih hr
    | none =>
      rw [hr] at h
      by_cases hac : a = c
      · simp [hac] at h
        cases h
        simpa using rfindIdx_none hr
      · simp [hac] at h

/-- C10: `split_filename` is a lossless split — when the returned
extension is non-empty, `stem ++ "." ++ extension` reproduces the
original filename exactly and the extension contains no dot; when the
extension is empty, the stem is the original filename with at most one
trailing dot removed (i.e. the stem equals the filename, or the filename
is the stem followed by a single dot). -/
theorem claim_C10_split_filename_lossless (filename : String) :
    ((split_filename filename).2 ≠ "" →
      (split_filename filename).1 ++ "." ++ (split_filename filename).2 =
          filename
        ∧ '.' ∉ (split_filename filename).2.data)
    ∧ ((split_filename filename).2 = "" →
      (split_filename filename).1 = filename
        ∨ filename = (split_filename filename).1 ++ ".") := by
  cases hr : rfindIdx '.' filename.data with
  | none =>
    have hs : split_filename filename = (filename, "") := by
      simp only [split_filename, hr]
    rw [hs]
    exact ⟨fun h => absurd rfl h, fun _ => Or.inl rfl⟩
  | some dot_pos =>
    have hlt := rfindIdx_lt_length hr
    have hget := rfindIdx_getElem hr
    have hchar : filename.data[dot_pos] = '.' := by
      rw [List.getElem?_eq_getElem hlt] at hget
      exact Option.some_injective _ hget
    have hdrop :
        filename.data.drop dot_pos = '.' :: filename.data.drop (dot_pos + 1) := by
      rw [← List.getElem_cons_drop filename.data dot_pos hlt, hchar]
    by_cases h1 : 0 < dot_pos ∧ dot_pos < filename.data.length - 1
    · have hs : split_filename filename =
          (⟨filename.data.take dot_pos⟩, ⟨filename.data.drop (dot_pos + 1)⟩) := by
        simp only [split_filename, hr]
        rw [if_pos h1]
      rw [hs]
      constructor
      · intro _
        refine ⟨?_, rfindIdx_not_mem_drop hr⟩
        apply String.ext
        rw [String.data_append, String.data_append]
        show filename.data.take dot_pos ++ ("." : String).data ++
            filename.data.drop (dot_pos + 1) = filename.data
        rw [show ("." : String).data = ['.'] from rfl, List.append_assoc,
          List.singleton_append, ← hdrop, List.take_append_drop]
      · intro hext
        exfalso
        have hd : filename.data.drop (dot_pos + 1) = [] :=
          congrArg String.data hext
        have := congrArg List.length hd
        simp only [List.length_drop, List.length_nil] at this
        omega
    · by_cases h2 : dot_pos = filename.data.length - 1
      · have hs : split_filename filename =
            (⟨filename.data.take dot_pos⟩, "") := by
          simp only [split_filename, hr]
          rw [if_neg h1, if_pos h2]
        rw [hs]
        refine ⟨fun h => absurd rfl h, fun _ => Or.inr ?_⟩
        apply String.ext
        rw [String.data_append]
        show filename.data = filename.data.take dot_pos ++ ("." : String).data
        rw [show ("." : String).data = ['.'] from rfl]
        have hnil : filename.data.drop (dot_pos + 1) = [] := by
          apply List.drop_eq_nil_of_le
          omega
        have hdrop2 : filename.data.drop dot_pos = ['.'] := by
          rw [hdrop, hnil]
        conv_lhs => rw [← List.take_append_drop dot_pos filename.data]
        rw [hdrop2]
      · have hs : split_filename filename = (filename, "") := by
          simp only [split_filename, hr]
          rw [if_neg h1, if_neg h2]
        rw [hs]
        exact ⟨fun h => absurd rfl h, fun _ => Or.inl rfl⟩

/-- Witness for C10 at concrete inputs: both the extension and the
no-extension cases. -/
theorem claim_C10_split_filename_lossless_witness :
    ("file.tar" ++ "." ++ "gz" = "file.tar.gz"
      ∧ '.' ∉ ("gz" : String).data)
    ∧ ("file" = "file." ∨ ("file." : String) = "file" ++ ".") := by
  constructor
  · have h := (claim_C10_split_filename_lossless "file.tar.gz").1
    have hs : split_filename "file.tar.gz" = ("file.tar", "gz") := by decide
    rw [hs] at h
    exact h (by decide)
  · have h := (claim_C10_split_filename_lossless "file.").2
    have hs : split_filename "file." = ("file", "") := by decide
    rw [hs] at h
    exact h rfl

/-- C8: for every final destination path with a valid filename, the
derived temporary path is bit-exact `".qbak_temp_<process-id>_<final-filename>"`
and is placed in the same directory as the final destination (or the
current directory when the destination has no parent). -/
theorem claim_C8_temp_path (process_id : Nat) (backup_path : RPath)
    (name : String) (h : backup_path.fileName = some name) :
    create_temp_backup_path process_id backup_path =
      .ok ((backup_path.parent.getD RPath.curDir).join
        (".qbak_temp_" ++ toString process_id ++ "_" ++ name))
    ∧ ((backup_path.parent.getD RPath.curDir).join
        (".qbak_temp_" ++ toString process_id ++ "_" ++ name)).fileName =
      some (".qbak_temp_" ++ toString process_id ++ "_" ++ name)
    ∧ ((backup_path.parent.getD RPath.curDir).join
        (".qbak_temp_" ++ toString process_id ++ "_" ++ name)).segments.dropLast =
      (backup_path.parent.getD RPath.curDir).segments := by
  refine ⟨?_, ?_, ?_⟩
  · simp only [create_temp_backup_path, h]
  · simp only [RPath.join, RPath.fileName, List.getLast?_concat]
  · simp only [RPath.join, List.dropLast_concat]

/-- Witness for C8: the temp path for destination `dir/test-qbak.txt`
under process id 42. -/
theorem claim_C8_temp_path_witness :
    create_temp_backup_path 42 ⟨["dir", "test-qbak.txt"]⟩ =
      .ok (((⟨["dir", "test-qbak.txt"]⟩ : RPath).parent.getD RPath.curDir).join
        (".qbak_temp_" ++ toString 42 ++ "_" ++ "test-qbak.txt"))
    ∧ (((⟨["dir", "test-qbak.txt"]⟩ : RPath).parent.getD RPath.curDir).join
        (".qbak_temp_" ++ toString 42 ++ "_" ++ "test-qbak.txt")).fileName =
      some (".qbak_temp_" ++ toString 42 ++ "_" ++ "test-qbak.txt") :=
  ⟨(claim_C8_temp_path 42 ⟨["dir", "test-qbak.txt"]⟩ "test-qbak.txt"
      (by decide)).1,
   (claim_C8_temp_path 42 ⟨["dir", "test-qbak.txt"]⟩ "test-qbak.txt"
      (by decide)).2.1⟩

/-- C7 (amended): the generated-name validators reject a name longer
than `max_filename_length` with a name-too-long error carrying the
offending length and the limit; reject a name containing any of
`< > : " | ? *` with an invalid-characters error carrying the offending
characters; reject a name whose stem case-insensitively matches a
reserved device name with the same error kind (payload
`"Reserved name: <STEM>"`); reject a name containing a control character
with the same error kind but the fixed payload `"Control characters"`
(not the offending characters themselves); and accept a name violating
none of these. -/
theorem claim_C7_filename_validation (filename : String) (max_length : Nat) :
    (utf8Len filename > max_length →
      validate_filename_length filename max_length =
        .error (.FilenameTooLong (utf8Len filename) max_length))
    ∧ (utf8Len filename ≤ max_length →
      validate_filename_length filename max_length = .ok ())
    ∧ (filename.data.filter (fun c => INVALID_CHARS.contains c) ≠ [] →
      validate_filesystem_chars filename =
        .error (.InvalidFilesystemChars
          ⟨filename.data.filter (fun c => INVALID_CHARS.contains c)⟩))
    ∧ (filename.data.filter (fun c => INVALID_CHARS.contains c) = [] →
      RESERVED_NAMES.contains (asciiUpper (split_filename filename).1) = true →
      validate_filesystem_chars filename =
        .error (.InvalidFilesystemChars
          ("Reserved name: " ++ asciiUpper (split_filename filename).1)))
    ∧ (filename.data.filter (fun c => INVALID_CHARS.contains c) = [] →
      RESERVED_NAMES.contains (asciiUpper (split_filename filename).1) = false →
      filename.data.any isControlChar = true →
      validate_filesystem_chars filename =
        .error (.InvalidFilesystemChars "Control characters"))
    ∧ (filename.data.filter (fun c => INVALID_CHARS.contains c) = [] →
      RESERVED_NAMES.contains (asciiUpper (split_filename filename).1) = false →
      filename.data.any isControlChar = false →
      validate_filesystem_chars filename = .ok ()) := by
  refine ⟨?_, ?_, ?_, ?_, ?_, ?_⟩
  · intro h
    simp only [validate_filename_length, if_pos h]
  · intro h
    simp only [validate_filename_length]
    rw [if_neg (by omega)]
  · intro h
    obtain ⟨a, t, ha⟩ := List.exists_cons_of_ne_nil h
    have hie : (filename.data.filter
        (fun c => INVALID_CHARS.contains c)).isEmpty = false := by
      rw [ha]; rfl
    simp only [validate_filesystem_chars]
    rw [if_pos hie]
  · intro h hres
    have hie : (filename.data.filter
        (fun c => INVALID_CHARS.contains c)).isEmpty = true := by
      rw [h]; rfl
    simp only [validate_filesystem_chars]
    rw [if_neg (by rw [hie]; simp), if_pos hres]
  · intro h hres hctl
    have hie : (filename.data.filter
        (fun c => INVALID_CHARS.contains c)).isEmpty = true := by
      rw [h]; rfl
    simp only [validate_filesystem_chars]
    rw [if_neg (by rw [hie]; simp), if_neg (by rw [hres]; simp),
      if_pos hctl]
  · intro h hres hctl
    have hie : (filename.data.filter
        (fun c => INVALID_CHARS.contains c)).isEmpty = true := by
      rw [h]; rfl
    simp only [validate_filesystem_chars]
    rw [if_neg (by rw [hie]; simp), if_neg (by rw [hres]; simp),
      if_neg (by rw [hctl]; simp)]

/-- Witness for C7: each validator behavior exercised at a concrete
name. -/
theorem claim_C7_filename_validation_witness :
    validate_filename_length "abc" 2 =
        .error (.FilenameTooLong (utf8Len "abc") 2)
    ∧ validate_filename_length "abc" 255 = .ok ()
    ∧ validate_filesystem_chars "a<b.txt" =
        .error (.InvalidFilesystemChars
          ⟨("a<b.txt" : String).data.filter (fun c => INVALID_CHARS.contains c)⟩)
    ∧ validate_filesystem_chars "con.txt" =
        .error (.InvalidFilesystemChars
          ("Reserved name: " ++ asciiUpper (split_filename "con.txt").1))
    ∧ validate_filesystem_chars ⟨['a', Char.ofNat 2]⟩ =
        .error (.InvalidFilesystemChars "Control characters")
    ∧ validate_filesystem_chars "normal-file.txt" = .ok () := by
  refine ⟨(claim_C7_filename_validation "abc" 2).1 (by decide),
    (claim_C7_filename_validation "abc" 255).2.1 (by decide),
    (claim_C7_filename_validation "a<b.txt" 0).2.2.1 (by decide),
    (claim_C7_filename_validation "con.txt" 0).2.2.2.1 (by decide) (by decide),
    (claim_C7_filename_validation ⟨['a', Char.ofNat 2]⟩ 0).2.2.2.2.1
      (by decide) (by decide) (by decide),
    (claim_C7_filename_validation "normal-file.txt" 0).2.2.2.2.2
      (by decide) (by decide) (by decide)⟩

/-- Counterexample for C7 as stated: a name containing (only) a control
character is rejected with an invalid-characters error whose payload is
the fixed string `"Control characters"`, not the offending character
set. -/
theorem claim_C7_counterexample :
    validate_filesystem_chars ⟨[Char.ofNat 1]⟩ =
        .error (.InvalidFilesystemChars "Control characters")
      ∧ ("Control characters" : String).data ≠
          (⟨[Char.ofNat 1]⟩ : String).data.filter isControlChar := by
  decide

/-- C5: for every source path with a valid final segment whose generated
name passes validation, `generate_backup_name` splits the segment at the
last interior dot, produces `"<stem>-<timestamp>-<suffix>[.<extension>]"`
with the timestamp rendered in compact ISO-8601 basic format, and joins
the name to the source's parent directory (or the current directory when
the source has no parent segment); any configured timestamp format —
recognized or not — renders as the compact ISO-8601 basic format. -/
theorem claim_C5_generate_backup_name (source : RPath) (config : Config)
    (now : DateTimeUtc) (name : String)
    (hname : source.fileName = some name)
    (hlen : validate_filename_length (spec_backup_name name config now)
        config.max_filename_length = .ok ())
    (hchars : validate_filesystem_chars (spec_backup_name name config now) =
        .ok ()) :
    generate_backup_name source config now =
        .ok ((source.parent.getD RPath.curDir).join
          (spec_backup_name name config now))
      ∧ ∀ format, format_timestamp now format = renderCompact now := by
  have hts : ∀ format, format_timestamp now format = renderCompact now := by
    intro format
    unfold format_timestamp
    split <;> rfl
  refine ⟨?_, hts⟩
  have hbn :
      (if (split_filename name).2 = "" then
        (split_filename name).1 ++ "-" ++
          format_timestamp now config.timestamp_format ++ "-" ++
          config.backup_suffix
      else
        (split_filename name).1 ++ "-" ++
          format_timestamp now config.timestamp_format ++ "-" ++
          config.backup_suffix ++ "." ++ (split_filename name).2) =
      spec_backup_name name config now := by
    rw [hts]
    unfold spec_backup_name
    by_cases hext : (split_filename name).2 = ""
    · rw [if_pos hext, if_pos hext, string_append_empty]
    · rw [if_neg hext, if_neg hext, ← string_append_assoc]
  simp only [generate_backup_name, hname]
  rw [hbn, hlen, hchars]
  rfl

/-- Witness for C5: backing up `tmp/test.txt` with the default
configuration at 2025-06-03T14:52:31Z, plus the fallback rendering of an
unrecognized timestamp format. -/
theorem claim_C5_generate_backup_name_witness :
    generate_backup_name ⟨["tmp", "test.txt"]⟩ default_config
        ⟨2025, 6, 3, 14, 52, 31⟩ =
      .ok ⟨["tmp", "test-20250603T145231-qbak.txt"]⟩
    ∧ format_timestamp ⟨2025, 6, 3, 14, 52, 31⟩ "unrecognized-format" =
        "20250603T145231" := by
  have h := claim_C5_generate_backup_name ⟨["tmp", "test.txt"]⟩
    default_config ⟨2025, 6, 3, 14, 52, 31⟩ "test.txt"
    (by decide) (by decide) (by decide)
  constructor
  · rw [h.1]
    decide
  · rw [h.2 "unrecognized-format"]
    decide

/-! ## Properties of the collision probe loop -/

theorem probeLoop_finds (fsExists : RPath → Bool) (parent : RPath)
    (stem ext : String) :
    ∀ (fuel counter n : Nat), counter ≤ n → n < counter + fuel →
      fsExists (parent.join (collisionName stem ext n)) = false →
      (∀ m, counter ≤ m → m < n →
        fsExists (parent.join (collisionName stem ext m)) = true) →
      probeLoop fsExists parent stem ext counter fuel =
        .ok (parent.join (collisionName stem ext n)) := by
  intro fuel
  induction fuel with
  | zero => intro counter n h1 h2 _ _; omega
  | succ fuel ih =>
    intro counter n h1 h2 h3 h4
    simp only [probeLoop]
    by_cases hc : counter = n
    · subst hc
      rw [if_pos h3]
    · have hcn : counter < n := lt_of_le_of_ne h1 hc
      have hcur : fsExists (parent.join (collisionName stem ext counter)) =
          true := h4 counter le_rfl hcn
      rw [if_neg (by rw [hcur]; simp)]
      exact ih (counter + 1) n hcn (by omega) h3
        (fun m hm1 hm2 => h4 m (by omega) hm2)

theorem probeLoop_exhausted (fsExists : RPath → Bool) (parent : RPath)
    (stem ext : String) :
    ∀ (fuel counter : Nat),
      (∀ m, counter ≤ m → m < counter + fuel →
        fsExists (parent.join (collisionName stem ext m)) = true) →
      probeLoop fsExists parent stem ext counter fuel =
        .error (QbakError.validation "Too many backup collisions (>9999)") := by
  intro fuel
  induction fuel with
  | zero => intro counter _; simp only [probeLoop]
  | succ fuel ih =>
    intro counter h
    simp only [probeLoop]
    have hcur : fsExists (parent.join (collisionName stem ext counter)) =
        true := h counter le_rfl (by omega)
    rw [if_neg (by rw [hcur]; simp)]
    exact ih (counter + 1) (fun m hm1 hm2 => h m (by omega) (by omega))

/-- C6: `resolve_collision` returns the candidate unchanged when it does
not exist; otherwise it probes `"<stem>-<n>[.<extension>]"` for
`n = 1..9999` in increasing order and returns the first path that does
not exist; if all 9999 variants exist it fails with the
collision-exhausted error; and on an unmodified filesystem it is
deterministic — two calls against identical point-in-time existence
observations return the same result. -/
theorem claim_C6_resolve_collision (fsExists : RPath → Bool)
    (base_path : RPath) (filename : String)
    (hname : base_path.fileName = some filename) :
    (fsExists base_path = false →
      resolve_collision fsExists base_path = .ok base_path)
    ∧ (fsExists base_path = true →
      ∀ n, 1 ≤ n → n ≤ 9999 →
        fsExists (collisionVariant base_path filename n) = false →
        (∀ m, 1 ≤ m → m < n →
          fsExists (collisionVariant base_path filename m) = true) →
        resolve_collision fsExists base_path =
          .ok (collisionVariant base_path filename n))
    ∧ (fsExists base_path = true →
      (∀ m, 1 ≤ m → m ≤ 9999 →
        fsExists (collisionVariant base_path filename m) = true) →
      resolve_collision fsExists base_path =
        .error (QbakError.validation "Too many backup collisions (>9999)"))
    ∧ (∀ fsExists2 : RPath → Bool, (∀ q, fsExists q = fsExists2 q) →
      resolve_collision fsExists base_path =
        resolve_collision fsExists2 base_path) := by
  refine ⟨?_, ?_, ?_, ?_⟩
  · intro h
    simp only [resolve_collision]
    rw [if_pos h]
  · intro h n hn1 hn2 hfree htaken
    simp only [resolve_collision, hname]
    rw [if_neg (by rw [h]; simp)]
    exact probeLoop_finds fsExists (base_path.parent.getD RPath.curDir)
      (split_filename filename).1 (split_filename filename).2
      9999 1 n hn1 (by omega) hfree (fun m hm1 hm2 => htaken m hm1 hm2)
  · intro h htaken
    simp only [resolve_collision, hname]
    rw [if_neg (by rw [h]; simp)]
    exact probeLoop_exhausted fsExists (base_path.parent.getD RPath.curDir)
      (split_filename filename).1 (split_filename filename).2
      9999 1 (fun m hm1 hm2 => htaken m hm1 (by omega))
  · intro fsExists2 hsame
    have : fsExists = fsExists2 := funext hsame
    rw [this]

/-- Witness for C6: with only `b.txt` existing, the candidate `b.txt`
resolves to its first free variant `b-1.txt`; with nothing existing, a
candidate is returned unchanged. -/
theorem claim_C6_resolve_collision_witness :
    resolve_collision (fun p => decide (p = ⟨["b.txt"]⟩)) ⟨["b.txt"]⟩ =
      .ok (collisionVariant ⟨["b.txt"]⟩ "b.txt" 1)
    ∧ resolve_collision (fun _ => false) ⟨["c.txt"]⟩ = .ok ⟨["c.txt"]⟩ := by
  constructor
  · exact (claim_C6_resolve_collision (fun p => decide (p = ⟨["b.txt"]⟩))
      ⟨["b.txt"]⟩ "b.txt" (by decide)).2.1 (by decide) 1 (by decide)
      (by decide) (by decide) (fun m hm1 hm2 => by omega)
  · exact (claim_C6_resolve_collision (fun _ => false) ⟨["c.txt"]⟩ "c.txt"
      (by decide)).1 rfl

/-- C9: the recoverability classification is exactly source-not-found,
permission-denied and generic validation errors; every other error kind
— including `Interrupted` — is non-recoverable; the per-target loop
continues past recoverable errors (completing the whole target list with
success/error counts) and aborts the whole run with the first
non-recoverable error. -/
theorem claim_C9_error_recoverability :
    (∀ e : QbakError, e.is_recoverable = true ↔
      ((∃ p, e = .SourceNotFound p) ∨ (∃ p, e = .PermissionDenied p) ∨
        (∃ m, e = .Validation m)))
    ∧ QbakError.Interrupted.is_recoverable = false
    ∧ (∀ (results : List (Except QbakError Unit)) (s n : Nat),
      (∀ r ∈ results, ∀ e, r = .error e → e.is_recoverable = true) →
      (process_targets s n results).isOk = true)
    ∧ (∀ (prefixResults rest : List (Except QbakError Unit))
        (err : QbakError) (s n : Nat),
      err.is_recoverable = false →
      (∀ r ∈ prefixResults, ∀ e, r = .error e → e.is_recoverable = true) →
      process_targets s n (prefixResults ++ .error err :: rest) =
        .error err) := by
  refine ⟨?_, rfl, ?_, ?_⟩
  · intro e
    cases e <;> simp [QbakError.is_recoverable]
  · intro results
    induction results with
    | nil => intro s n _; rfl
    | cons r rest ih =>
      intro s n h
      cases r with
      | ok _ =>
        have hr := ih (s + 1) n
          (fun r hr e he => h r (List.mem_cons_of_mem _ hr) e he)
        simpa [process_targets] using hr
      | error e =>
        have he : e.is_recoverable = true :=
          h (.error e) (List.mem_cons_self _ _) e rfl
        have hr := ih s (n + 1)
          (fun r hr e' he' => h r (List.mem_cons_of_mem _ hr) e' he')
        simpa [process_targets, he] using hr
  · intro prefixResults
    induction prefixResults with
    | nil =>
      intro rest err s n herr _
      simp [process_targets, herr]
    | cons r rest' ih =>
      intro rest err s n herr h
      cases r with
      | ok _ =>
        simpa [process_targets] using
          ih rest err (s + 1) n herr
            (fun r hr e he => h r (List.mem_cons_of_mem _ hr) e he)
      | error e =>
        have he : e.is_recoverable = true :=
          h (.error e) (List.mem_cons_self _ _) e rfl
        simpa [process_targets, he] using
          ih rest err s (n + 1) herr
            (fun r hr e' he' => h r (List.mem_cons_of_mem _ hr) e' he')

/-- Witness for C9: a run whose first target fails recoverably
(source-not-found) and whose second fails with `Interrupted` aborts with
`Interrupted`; a run with only recoverable failures completes. -/
theorem claim_C9_error_recoverability_witness :
    process_targets 0 0
        [.error (.SourceNotFound ⟨["x"]⟩), .error .Interrupted, .ok ()] =
      .error .Interrupted
    ∧ (process_targets 0 0
        [.ok (), .error (.PermissionDenied ⟨["y"]⟩)]).isOk = true := by
  constructor
  · exact claim_C9_error_recoverability.2.2.2
      [.error (.SourceNotFound ⟨["x"]⟩)] [.ok ()] .Interrupted 0 0 rfl
      (by intro r hr e he
          simp only [List.mem_singleton] at hr
          subst hr
          cases he
          rfl)
  · exact claim_C9_error_recoverability.2.2.1
      [.ok (), .error (.PermissionDenied ⟨["y"]⟩)] 0 0
      (by intro r hr e he
          rcases List.mem_cons.mp hr with h1 | h1
          · rw [h1] at he
            cases he
          · simp only [List.mem_singleton] at h1
            subst h1
            cases he
            rfl)

/-- C2: for every registered backup path `p`: after `register(p)`
followed by `complete()`, `p` is absent from the active set (and stays
absent when the disarmed guard is dropped); after `register(p)` followed
by dropping the guard while the interrupt flag is not set, `p` is
absent; after `register(p)`, setting the interrupt flag, then dropping
the guard, `p` remains present in the set, and after `cleanup()` it is
absent from the set and the path no longer exists on disk. -/
theorem claim_C2_registry_guard (w : World) (p : RPath) :
    (p ∉ (guardComplete (register_operation p w).1
        (register_operation p w).2).2.active)
    ∧ (p ∉ (guardDrop (guardComplete (register_operation p w).1
          (register_operation p w).2).1
        (guardComplete (register_operation p w).1
          (register_operation p w).2).2).active)
    ∧ (w.interrupted = false →
      p ∉ (guardDrop (register_operation p w).1
        (register_operation p w).2).active)
    ∧ (p ∈ (guardDrop (register_operation p w).1
        (set_interrupted true (register_operation p w).2)).active)
    ∧ (p ∉ (cleanup_active_operations_with_mode true
        (guardDrop (register_operation p w).1
          (set_interrupted true (register_operation p w).2))).active)
    ∧ ((cleanup_active_operations_with_mode true
        (guardDrop (register_operation p w).1
          (set_interrupted true (register_operation p w).2))).disk p =
      false) := by
  refine ⟨?_, ?_, ?_, ?_, ?_, ?_⟩
  · simp [register_operation, guardComplete, remove_operation]
  · simp [register_operation, guardComplete, remove_operation, guardDrop]
  · intro h
    simp [register_operation, guardDrop, h, remove_operation]
  · simp [register_operation, guardDrop, set_interrupted]
  · simp [cleanup_active_operations_with_mode]
  · simp [cleanup_active_operations_with_mode, guardDrop, set_interrupted,
      register_operation]

/-- Witness for C2: the guard/registry scenarios at a concrete path in a
fresh, uninterrupted session. -/
theorem claim_C2_registry_guard_witness :
    (⟨["backup-qbak"]⟩ : RPath) ∉ (guardDrop
        (register_operation ⟨["backup-qbak"]⟩ ⟨false, ∅, fun _ => true⟩).1
        (register_operation ⟨["backup-qbak"]⟩
          ⟨false, ∅, fun _ => true⟩).2).active
    ∧ (⟨["backup-qbak"]⟩ : RPath) ∈ (guardDrop
        (register_operation ⟨["backup-qbak"]⟩ ⟨false, ∅, fun _ => true⟩).1
        (set_interrupted true
          (register_operation ⟨["backup-qbak"]⟩
            ⟨false, ∅, fun _ => true⟩).2)).active
    ∧ (cleanup_active_operations_with_mode true
        (guardDrop
          (register_operation ⟨["backup-qbak"]⟩
            ⟨false, ∅, fun _ => true⟩).1
          (set_interrupted true
            (register_operation ⟨["backup-qbak"]⟩
              ⟨false, ∅, fun _ => true⟩).2))).disk ⟨["backup-qbak"]⟩ =
      false :=
  ⟨(claim_C2_registry_guard ⟨false, ∅, fun _ => true⟩
      ⟨["backup-qbak"]⟩).2.2.1 rfl,
   (claim_C2_registry_guard ⟨false, ∅, fun _ => true⟩
      ⟨["backup-qbak"]⟩).2.2.2.1,
   (claim_C2_registry_guard ⟨false, ∅, fun _ => true⟩
      ⟨["backup-qbak"]⟩).2.2.2.2.2⟩

/-! ## Properties of the copy loop -/

theorem chunkPolls_sub (L : Nat) (h : 1 ≤ L) :
    chunkPolls L = chunkPolls (L - CHUNK_SIZE) + 1 := by
  unfold chunkPolls CHUNK_SIZE
  omega

theorem copyLoop_interrupt (interrupted : Nat → Bool) (poll : Nat)
    (rem written : List UInt8)
    (h : ∃ j, j ≤ chunkPolls rem.length ∧ interrupted (poll + j) = true) :
    copyLoop interrupted poll rem written = (.error .Interrupted, none) := by
  revert h
  induction poll, rem, written using copyLoop.induct interrupted with
  | case1 poll rem written hint =>
    intro _
    rw [copyLoop, if_pos hint]
  | case2 poll written hnint =>
    intro h
    exfalso
    obtain ⟨j, hj, hset⟩ := h
    have hj0 : j = 0 := by
      have : chunkPolls 0 = 0 := by decide
      simpa [this] using hj
    subst hj0
    simp only [Nat.add_zero] at hset
    exact hnint hset
  | case3 poll rem written hnint hnnil ih =>
    intro h
    obtain ⟨j, hj, hset⟩ := h
    have hj1 : 1 ≤ j := by
      rcases Nat.eq_zero_or_pos j with hj0 | hj0
      · subst hj0
        simp only [Nat.add_zero] at hset
        exact absurd hset hnint
      · exact hj0
    have hL : 1 ≤ rem.length := by
      have := List.length_pos.mpr hnnil
      omega
    rw [copyLoop, if_neg hnint, dif_neg hnnil]
    apply ih
    refine ⟨j - 1, ?_, ?_⟩
    · have := chunkPolls_sub rem.length hL
      simp only [List.length_drop]
      omega
    · have : poll + 1 + (j - 1) = poll + j := by omega
      rw [this]
      exact hset

theorem copyLoop_ok (interrupted : Nat → Bool) (poll : Nat)
    (rem written : List UInt8) (d : Option (List UInt8))
    (h : copyLoop interrupted poll rem written = (.ok (), d)) :
    d = some (written ++ rem) := by
  revert h
  induction poll, rem, written using copyLoop.induct interrupted with
  | case1 poll rem written hint =>
    intro h
    rw [copyLoop, if_pos hint] at h
    simp at h
  | case2 poll written hnint =>
    intro h
    rw [copyLoop, if_neg hnint, dif_pos rfl] at h
    simp only [Prod.mk.injEq] at h
    rw [← h.2, List.append_nil]
  | case3 poll rem written hnint hnnil ih =>
    intro h
    rw [copyLoop, if_neg hnint, dif_neg hnnil] at h
    have := ih h
    rw [this, List.append_assoc, List.take_append_drop]

/-- C1: whenever the interrupt flag is observed set at one of the
per-chunk polls of the copy routine, the single-file backup deletes the
partially written temp file (no file remains at the temp path) and fails
with an `Interrupted` error, and the final destination path is never
created or modified. -/
theorem claim_C1_interrupted_copy_cleanup (interrupted : Nat → Bool)
    (src : FileSrc) (fs : TwoSlotFs)
    (h : ∃ j, j ≤ chunkPolls src.content.length ∧ interrupted j = true) :
    backup_file interrupted src fs =
      (.error .Interrupted, { temp := none, final := fs.final }) := by
  have hc : copy_file_with_interrupt_check interrupted src.content =
      (.error .Interrupted, none) := by
    apply copyLoop_interrupt
    simpa using h
  simp only [backup_file, hc]

/-- Witness for C1: a copy whose very first poll observes the flag set
fails with `Interrupted`, leaves nothing at the temp path, and leaves
the pre-existing final destination untouched. -/
theorem claim_C1_interrupted_copy_cleanup_witness :
    backup_file (fun _ => true) ⟨3, [1, 2, 3]⟩ ⟨none, some [9]⟩ =
      (.error .Interrupted, { temp := none, final := some [9] }) :=
  claim_C1_interrupted_copy_cleanup (fun _ => true) ⟨3, [1, 2, 3]⟩
    ⟨none, some [9]⟩ ⟨0, by decide, rfl⟩

/-- C3: every successful `backup_file` run leaves at the destination a
file whose bytes are identical to the source bytes streamed by the copy
(with the temp path cleared by the rename), and reports
`files_processed = 1` and `total_size` equal to the source's
stat-reported length — not the byte count physically transferred. -/
theorem claim_C3_backup_file_success (interrupted : Nat → Bool)
    (src : FileSrc) (fs fs' : TwoSlotFs) (r : BackupResultData)
    (h : backup_file interrupted src fs = (.ok r, fs')) :
    fs'.final = some src.content ∧ fs'.temp = none
      ∧ r.files_processed = 1 ∧ r.total_size = src.stat_len := by
  rcases hc : copy_file_with_interrupt_check interrupted src.content
    with ⟨cr, d⟩
  cases cr with
  | error e =>
    rw [backup_file] at h
    rw [hc] at h
    simp at h
  | ok u =>
    cases u
    have hd : d = some src.content := by
      have := copyLoop_ok interrupted 0 src.content [] d
        (by simpa [copy_file_with_interrupt_check] using hc)
      simpa using this
    rw [backup_file] at h
    rw [hc] at h
    simp only [Prod.mk.injEq, Except.ok.injEq] at h
    obtain ⟨h1, h2⟩ := h
    subst h1
    subst h2
    refine ⟨by rw [hd], rfl, rfl, rfl⟩

/-- Witness for C3: copying a two-byte file whose stat length is 2. -/
theorem claim_C3_backup_file_success_witness :
    (⟨none, some [104, 105]⟩ : TwoSlotFs).final = some [104, 105]
      ∧ (⟨none, some [104, 105]⟩ : TwoSlotFs).temp = none
      ∧ (⟨1, 2⟩ : BackupResultData).files_processed = 1
      ∧ (⟨1, 2⟩ : BackupResultData).total_size =
          (⟨2, [104, 105]⟩ : FileSrc).stat_len := by
  apply claim_C3_backup_file_success (fun _ => false) ⟨2, [104, 105]⟩
    ⟨none, none⟩
  have hdrop : (List.drop CHUNK_SIZE [104, 105] : List UInt8) = [] := by
    decide
  have htake : (List.take CHUNK_SIZE [104, 105] : List UInt8) =
      [104, 105] := by decide
  have e1 : copyLoop (fun _ => false) 1 ([] : List UInt8) [104, 105] =
      (.ok (), some [104, 105]) := by
    rw [copyLoop]
    norm_num
  have e0 : copyLoop (fun _ => false) 0 ([104, 105] : List UInt8) [] =
      (.ok (), some [104, 105]) := by
    rw [copyLoop]
    norm_num
    rw [hdrop, htake]
    exact e1
  rw [backup_file]
  rw [copy_file_with_interrupt_check, e0]

/-! ## Pre-scan versus copying traversal (claim C4) -/

theorem noSymlinks_cons {e : FsEntry} {rest : List FsEntry}
    (h : noSymlinks (e :: rest) = true) : noSymlinks rest = true := by
  cases e with
  | file n size => simpa [noSymlinks] using h
  | directory n entries =>
    simp only [noSymlinks, Bool.and_eq_true] at h
    exact h.2
  | symlinkFile n size => simp [noSymlinks] at h
  | symlinkDir n entries => simp [noSymlinks] at h
  | symlinkNone n => simp [noSymlinks] at h

theorem scan_eq_copy (config : Config) (entries : List FsEntry)
    (h : noSymlinks entries = true ∨ config.follow_symlinks = false) :
    count_files_and_size_recursive config entries =
      copy_directory_contents_with_progress config entries := by
  revert h
  induction entries using count_files_and_size_recursive.induct config with
  | case1 =>
    intro _
    simp only [count_files_and_size_recursive,
      copy_directory_contents_with_progress]
  | case2 e rest hhid ih =>
    intro h
    have hrest : noSymlinks rest = true ∨ config.follow_symlinks = false := by
      rcases h with h | h
      · exact Or.inl (noSymlinks_cons h)
      · exact Or.inr h
    cases e <;>
      (simp only [count_files_and_size_recursive,
        copy_directory_contents_with_progress]
       rw [if_pos hhid, if_pos hhid]
       exact ih hrest)
  | case3 rest n size hhid ih =>
    intro h
    have hrest : noSymlinks rest = true ∨ config.follow_symlinks = false := by
      rcases h with h | h
      · exact Or.inl (noSymlinks_cons h)
      · exact Or.inr h
    simp only [count_files_and_size_recursive,
      copy_directory_contents_with_progress]
    rw [if_neg hhid, if_neg hhid, ih hrest]
  | case4 rest n entries hhid ihrest ihsub =>
    intro h
    have hrest : noSymlinks rest = true ∨ config.follow_symlinks = false := by
      rcases h with h | h
      · exact Or.inl (noSymlinks_cons h)
      · exact Or.inr h
    have hsub : noSymlinks entries = true ∨ config.follow_symlinks = false := by
      rcases h with h | h
      · simp only [noSymlinks, Bool.and_eq_true] at h
        exact Or.inl h.1
      · exact Or.inr h
    simp only [count_files_and_size_recursive,
      copy_directory_contents_with_progress]
    rw [if_neg hhid, if_neg hhid, ihrest hrest, ihsub hsub]
  | case5 rest n size hhid ih =>
    intro h
    have hf : config.follow_symlinks = false := by
      rcases h with h | h
      · simp [noSymlinks] at h
      · exact h
    simp only [count_files_and_size_recursive,
      copy_directory_contents_with_progress]
    rw [if_neg hhid, if_neg hhid, if_neg (by rw [hf]; simp),
      ih (Or.inr hf)]
  | case6 rest n entries hhid ih =>
    intro h
    have hf : config.follow_symlinks = false := by
      rcases h with h | h
      · simp [noSymlinks] at h
      · exact h
    simp only [count_files_and_size_recursive,
      copy_directory_contents_with_progress]
    rw [if_neg hhid, if_neg hhid, if_neg (by rw [hf]; simp),
      ih (Or.inr hf)]
  | case7 rest n hhid ih =>
    intro h
    have hrest : noSymlinks rest = true ∨ config.follow_symlinks = false := by
      rcases h with h | h
      · exact Or.inl (noSymlinks_cons h)
      · exact Or.inr h
    simp only [count_files_and_size_recursive,
      copy_directory_contents_with_progress]
    rw [if_neg hhid, if_neg hhid, ih hrest]

/-- Counterexample for C4 as stated: on a directory containing one
regular file and one symlink resolving to a regular file, with the
default configuration (`follow_symlinks = true`), the read-only pre-scan
counts 1 file while the copying traversal processes 2 — the two walks do
not apply the same symlink policy. -/
theorem claim_C4_counterexample :
    count_files_and_size_recursive default_config
        [FsEntry.file "a.txt" 5, FsEntry.symlinkFile "link.txt" 5] = (1, 5)
    ∧ copy_directory_contents_with_progress default_config
        [FsEntry.file "a.txt" 5, FsEntry.symlinkFile "link.txt" 5] = (2, 10)
    ∧ ((1, 5) : Nat × Nat) ≠ (2, 10)
    ∧ default_config.follow_symlinks = true := by
  refine ⟨?_, ?_, by decide, rfl⟩
  · simp [count_files_and_size_recursive, default_config]
  · simp [copy_directory_contents_with_progress, default_config]

/-- C4 (amended): the read-only pre-scan applies the identical
hidden-file policy as the copying traversal but skips symlink entries
entirely; consequently the pre-scan totals equal the copying traversal's
accumulator totals on trees containing no symlinks, and on arbitrary
trees whenever `follow_symlinks` is false — but not in general when
`follow_symlinks` is true and symlinks are present. -/
theorem claim_C4_prescan_policy (config : Config) (entries : List FsEntry) :
    (noSymlinks entries = true →
      count_files_and_size_recursive config entries =
        copy_directory_contents_with_progress config entries)
    ∧ (config.follow_symlinks = false →
      count_files_and_size_recursive config entries =
        copy_directory_contents_with_progress config entries) :=
  ⟨fun h => scan_eq_copy config entries (Or.inl h),
   fun h => scan_eq_copy config entries (Or.inr h)⟩

/-- Witness for C4 (amended): a symlink-free two-level tree on which
pre-scan and copy agree. -/
theorem claim_C4_prescan_policy_witness :
    count_files_and_size_recursive default_config
        [FsEntry.file "a.txt" 5,
         FsEntry.directory "d" [FsEntry.file "b.txt" 7]] =
      copy_directory_contents_with_progress default_config
        [FsEntry.file "a.txt" 5,
         FsEntry.directory "d" [FsEntry.file "b.txt" 7]] :=
  (claim_C4_prescan_policy default_config
    [FsEntry.file "a.txt" 5,
     FsEntry.directory "d" [FsEntry.file "b.txt" 7]]).1
    (by simp [noSymlinks])

end Qbak
